import Mathlib

/-!
# Verification of the multi-source ASN prefix aggregator

Shallow embedding of the Python tool (`src/a.py`) that resolves the set of
IP prefixes announced by an ASN by querying three routing-data sources,
merging, deduplicating and sorting the results.

Modelling conventions:
* A Python `str` is modelled as `List Char` where character-level operations
  matter (the ASN normalizer), and as Lean `String` elsewhere. Character
  semantics are the ASCII fragment of Python's (`str.strip`, `str.upper`,
  `int(...)`, `json.loads` are modelled for ASCII text; the repository only
  ever handles ASCII ASN tokens and JSON routing data).
* JSON-decoded Python values are modelled by `JValue`; Python `dict.get`,
  `in`, indexing, truthiness and `==` against ints/strings are modelled by
  explicit functions that also surface the `AttributeError`/`TypeError`
  exceptions Python raises on unexpected shapes.
* Network and filesystem effects are modelled by explicit oracles
  (`HttpOutcome` for an adapter's single `requests.get`, `CacheEnv` for the
  bulk-table cache file, clock and download outcome). A function that can
  let a Python exception escape returns `Except PyExc …`.
-/

/-! ## ASN normalizer (`normalize_asn`, src/a.py lines 53-60)

Python strings are modelled as `List Char`; `str.strip` and `str.upper`
are modelled on the ASCII fragment. -/

/-- The ASCII whitespace characters removed by Python's `str.strip()`:
space, tab, newline, carriage return, vertical tab, form feed. -/
def pyIsSpace (c : Char) : Bool :=
  c.toNat = 32 || c.toNat = 9 || c.toNat = 10 || c.toNat = 13 ||
    c.toNat = 11 || c.toNat = 12

/-- Python `str.strip()`: drop leading and trailing whitespace. -/
def pyStrip (l : List Char) : List Char :=
  ((l.dropWhile pyIsSpace).reverse.dropWhile pyIsSpace).reverse

/-- Python `str.upper()` on ASCII text (`Char.toUpper` uppercases exactly
the basic latin letters, as Python does on ASCII input). -/
def pyUpper (l : List Char) : List Char :=
  l.map Char.toUpper

/-- The literal `"AS"` prepended by the normalizer. -/
def asLit : List Char := ['A', 'S']

/-- `normalize_asn` (src/a.py lines 53-60):
`asn = asn.strip().upper()`; prepend `"AS"` unless already present. -/
def normalize_asn (asn : List Char) : List Char :=
  if asLit.isPrefixOf (pyUpper (pyStrip asn)) then pyUpper (pyStrip asn)
  else asLit ++ pyUpper (pyStrip asn)

/-! ### Character-level lemmas -/

theorem char_toNat_ofNat {n : Nat} (h : n.isValidChar) :
    (Char.ofNat n).toNat = n := by
  simp only [Char.ofNat, h, dite_true]
  rfl

theorem toUpper_toNat (c : Char) :
    (Char.toUpper c).toNat = if 97 ≤ c.toNat ∧ c.toNat ≤ 122 then c.toNat - 32 else c.toNat := by
  simp only [Char.toUpper, ge_iff_le]
  split
  · rename_i h
    have hv : (c.toNat - 32).isValidChar := Or.inl (by omega)
    rw [char_toNat_ofNat hv]
  · rfl

theorem char_eq_of_toNat_eq {c d : Char} (h : c.toNat = d.toNat) : c = d :=
  Char.ext (UInt32.toNat.inj h)

theorem toUpper_toUpper (c : Char) : c.toUpper.toUpper = c.toUpper := by
  apply char_eq_of_toNat_eq
  by_cases h : 97 ≤ c.toNat ∧ c.toNat ≤ 122
  · have hX : c.toUpper.toNat = c.toNat - 32 := by rw [toUpper_toNat, if_pos h]
    rw [toUpper_toNat c.toUpper, hX, if_neg (by omega)]
  · have hX : c.toUpper.toNat = c.toNat := by rw [toUpper_toNat, if_neg h]
    rw [toUpper_toNat c.toUpper, hX, if_neg h]

theorem pyIsSpace_eq_false (c : Char) (h : 33 ≤ c.toNat) : pyIsSpace c = false := by
  simp only [pyIsSpace, Bool.or_eq_false_iff, decide_eq_false_iff_not]
  omega

theorem pyIsSpace_toUpper (c : Char) : pyIsSpace c.toUpper = pyIsSpace c := by
  by_cases h : 97 ≤ c.toNat ∧ c.toNat ≤ 122
  · rw [pyIsSpace_eq_false c (by omega), pyIsSpace_eq_false c.toUpper]
    rw [toUpper_toNat, if_pos h]
    omega
  · have he : c.toUpper.toNat = c.toNat := by rw [toUpper_toNat, if_neg h]
    simp only [pyIsSpace, he]

/-! ### Whitespace-stripping lemmas -/

/-- The first character, if any, is not Python whitespace. -/
def headNotSpace : List Char → Prop
  | [] => True
  | c :: _ => pyIsSpace c = false

theorem headNotSpace_dropWhile (l : List Char) :
    headNotSpace (l.dropWhile pyIsSpace) := by
  induction l with
  | nil => trivial
  | cons c t ih =>
    cases h : pyIsSpace c with
    | true => rw [List.dropWhile_cons_of_pos h]; exact ih
    | false =>
      simp only [List.dropWhile_cons, h, Bool.false_eq_true, if_false]
      exact h

theorem dropWhile_eq_self_of_headNotSpace {l : List Char} (h : headNotSpace l) :
    l.dropWhile pyIsSpace = l := by
  cases l with
  | nil => rfl
  | cons c t =>
    have hc : pyIsSpace c = false := h
    simp only [List.dropWhile_cons, hc, Bool.false_eq_true, if_false]

theorem headNotSpace_of_prefix {l₁ l₂ : List Char} (hp : l₁ <+: l₂) (h : headNotSpace l₂) :
    headNotSpace l₁ := by
  cases l₁ with
  | nil => trivial
  | cons c t =>
    obtain ⟨r, hr⟩ := hp
    rw [← hr] at h
    exact h

theorem headNotSpace_pyStrip (l : List Char) : headNotSpace (pyStrip l) := by
  have h1 : headNotSpace (l.dropWhile pyIsSpace) := headNotSpace_dropWhile l
  have hs : ((l.dropWhile pyIsSpace).reverse.dropWhile pyIsSpace) <:+
      (l.dropWhile pyIsSpace).reverse := List.dropWhile_suffix _
  have hp : pyStrip l <+: l.dropWhile pyIsSpace := by
    simpa [pyStrip] using List.reverse_prefix.mpr hs
  exact headNotSpace_of_prefix hp h1

theorem headNotSpace_reverse_pyStrip (l : List Char) : headNotSpace (pyStrip l).reverse := by
  unfold pyStrip
  rw [List.reverse_reverse]
  exact headNotSpace_dropWhile _

theorem pyStrip_eq_self {l : List Char} (h1 : headNotSpace l) (h2 : headNotSpace l.reverse) :
    pyStrip l = l := by
  unfold pyStrip
  rw [dropWhile_eq_self_of_headNotSpace h1, dropWhile_eq_self_of_headNotSpace h2,
    List.reverse_reverse]

theorem dropWhile_map_toUpper (l : List Char) :
    (l.map Char.toUpper).dropWhile pyIsSpace = (l.dropWhile pyIsSpace).map Char.toUpper := by
  induction l with
  | nil => rfl
  | cons c t ih =>
    simp only [List.map_cons, List.dropWhile_cons, pyIsSpace_toUpper]
    cases h : pyIsSpace c with
    | true => simpa [h] using ih
    | false => simp [h]

theorem pyStrip_pyUpper (l : List Char) : pyStrip (pyUpper l) = pyUpper (pyStrip l) := by
  simp only [pyStrip, pyUpper]
  rw [dropWhile_map_toUpper, ← List.map_reverse, dropWhile_map_toUpper, ← List.map_reverse]

theorem pyUpper_pyUpper (l : List Char) : pyUpper (pyUpper l) = pyUpper l := by
  simp only [pyUpper, List.map_map]
  induction l with
  | nil => rfl
  | cons c t ih => simp only [List.map_cons, Function.comp_apply, toUpper_toUpper, ih]

theorem headNotSpace_pyUpper {l : List Char} (h : headNotSpace l) :
    headNotSpace (pyUpper l) := by
  cases l with
  | nil => trivial
  | cons c t =>
    show pyIsSpace c.toUpper = false
    rw [pyIsSpace_toUpper]
    exact h

/-! ### Shape of `normalize_asn` output -/

theorem headNotSpace_normalize (s : List Char) : headNotSpace (normalize_asn s) := by
  unfold normalize_asn
  have h1 : headNotSpace (pyUpper (pyStrip s)) :=
    headNotSpace_pyUpper (headNotSpace_pyStrip s)
  split
  · exact h1
  · show pyIsSpace 'A' = false
    decide

theorem headNotSpace_reverse_normalize (s : List Char) :
    headNotSpace (normalize_asn s).reverse := by
  unfold normalize_asn
  have h2 : headNotSpace (pyUpper (pyStrip s)).reverse := by
    rw [pyUpper, ← List.map_reverse]
    exact headNotSpace_pyUpper (headNotSpace_reverse_pyStrip s)
  split
  · exact h2
  · rw [List.reverse_append]
    cases ht : (pyUpper (pyStrip s)).reverse with
    | nil =>
      show pyIsSpace 'S' = false
      decide
    | cons c r =>
      rw [ht] at h2
      exact h2

theorem pyStrip_normalize (s : List Char) :
    pyStrip (normalize_asn s) = normalize_asn s :=
  pyStrip_eq_self (headNotSpace_normalize s) (headNotSpace_reverse_normalize s)

theorem pyUpper_normalize (s : List Char) :
    pyUpper (normalize_asn s) = normalize_asn s := by
  unfold normalize_asn
  split
  · exact pyUpper_pyUpper (pyStrip s)
  · show pyUpper (asLit ++ pyUpper (pyStrip s)) = _
    rw [pyUpper, List.map_append]
    have h1 : asLit.map Char.toUpper = asLit := by decide
    rw [h1]
    exact congrArg (asLit ++ ·) (pyUpper_pyUpper (pyStrip s))

theorem asLit_isPrefixOf_normalize (s : List Char) :
    asLit.isPrefixOf (normalize_asn s) = true := by
  unfold normalize_asn
  split
  · rename_i h
    exact h
  · exact List.isPrefixOf_iff_prefix.mpr (List.prefix_append _ _)

theorem normalize_asn_fixed {l : List Char} (h1 : pyStrip l = l) (h2 : pyUpper l = l)
    (h3 : asLit.isPrefixOf l = true) : normalize_asn l = l := by
  unfold normalize_asn
  rw [h1, h2]
  simp [h3]

/-! ## Python `int(...)` on strings (used by `fetch_prefixes_bgptools`) -/

/-- Value of a nonempty all-digit string, else `none`. -/
def natOfDigits (l : List Char) : Option Nat :=
  if l ≠ [] ∧ l.all Char.isDigit then
    some (l.foldl (fun a c => a * 10 + (c.toNat - 48)) 0)
  else none

/-- Python `int(s)` on ASCII text: strip whitespace, optional sign, decimal
digits (digit-separating underscores are not modelled). `none` models the
`ValueError` raised on malformed input. -/
def pyIntOfList (l : List Char) : Option Int :=
  match pyStrip l with
  | '+' :: ds => (natOfDigits ds).map fun n => (n : Int)
  | '-' :: ds => (natOfDigits ds).map fun n => -(n : Int)
  | ds => (natOfDigits ds).map fun n => (n : Int)

/-- The ASN invariant's numeric condition on the token after "AS": it
denotes a non-negative integer under Python `int` parsing. -/
def denotesNonnegInt (l : List Char) : Prop :=
  ∃ n : Nat, pyIntOfList l = some (n : Int)

/-! ## Claim theorems for the ASN normalizer -/

/-- C8: on each of the inputs "62419", "as62419", "AS62419" and
"  AS62419  ", `normalize_asn` returns exactly "AS62419". -/
theorem normalize_asn_examples :
    normalize_asn "62419".toList = "AS62419".toList ∧
    normalize_asn "as62419".toList = "AS62419".toList ∧
    normalize_asn "AS62419".toList = "AS62419".toList ∧
    normalize_asn "  AS62419  ".toList = "AS62419".toList := by
  refine ⟨?_, ?_, ?_, ?_⟩ <;> decide

/-- C9: `normalize_asn` is idempotent — normalizing an already-normalized
token leaves it unchanged. -/
theorem normalize_asn_idempotent (s : List Char) :
    normalize_asn (normalize_asn s) = normalize_asn s :=
  normalize_asn_fixed (pyStrip_normalize s) (pyUpper_normalize s)
    (asLit_isPrefixOf_normalize s)

/-- C2 (counterexample): the claim that every `normalize_asn` output has a
remainder after "AS" denoting a non-negative integer is false: on input
"XYZ" the normalizer returns "ASXYZ", whose remainder "XYZ" does not parse
as an integer. -/
theorem normalize_asn_not_always_numeric :
    normalize_asn "XYZ".toList = "ASXYZ".toList ∧
    ¬ denotesNonnegInt ((normalize_asn "XYZ".toList).drop 2) := by
  constructor
  · decide
  · rintro ⟨n, hn⟩
    have h : pyIntOfList ((normalize_asn "XYZ".toList).drop 2) = none := by decide
    rw [h] at hn
    exact Option.noConfusion hn

/-- C2 (amended): `normalize_asn` accepts every input string without any
failure mode, and its output is always upper-case and prefixed with "AS";
the remainder after "AS" is not necessarily numeric. -/
theorem normalize_asn_wellformed (s : List Char) :
    asLit.isPrefixOf (normalize_asn s) = true ∧
    pyUpper (normalize_asn s) = normalize_asn s :=
  ⟨asLit_isPrefixOf_normalize s, pyUpper_normalize s⟩

/-! ## Aggregator (`process_asn`, src/a.py lines 135-176)

The merge logic: each adapter's returned prefixes are added to a Python
`set` (`combined_prefixes.add(prefix)`) and the function returns
`sorted(combined_prefixes)`. Prefixes are compared by exact string
equality; `sorted` orders strings by code points, which Lean's `String`
linear order matches. The `if prefixes_x:` truthiness guards in the source
only skip a loop over an empty list, which adds nothing. -/

/-- Python `set.add` on the deduplicated accumulator. -/
def setAdd (s : List String) (x : String) : List String :=
  if x ∈ s then s else s ++ [x]

/-- Add every element of `ps` to the set `s` (one adapter-result loop). -/
def addAll (s : List String) (ps : List String) : List String :=
  ps.foldl setAdd s

/-- The value computed by `process_asn` from the three adapters' prefix
lists: union into a set, then `sorted(...)`. -/
def process_asn (pA pB pC : List String) : List String :=
  List.insertionSort (· ≤ ·) (addAll (addAll (addAll [] pA) pB) pC)

theorem mem_setAdd {x y : String} {s : List String} :
    x ∈ setAdd s y ↔ x ∈ s ∨ x = y := by
  unfold setAdd
  split
  · rename_i h
    refine ⟨Or.inl, ?_⟩
    rintro (h1 | rfl)
    · exact h1
    · exact h
  · simp [List.mem_append]

theorem mem_addAll {x : String} {s ps : List String} :
    x ∈ addAll s ps ↔ x ∈ s ∨ x ∈ ps := by
  induction ps generalizing s with
  | nil => simp [addAll]
  | cons p t ih =>
    show x ∈ addAll (setAdd s p) t ↔ _
    rw [ih, mem_setAdd]
    simp only [List.mem_cons]
    tauto

theorem nodup_setAdd {s : List String} (h : s.Nodup) (y : String) :
    (setAdd s y).Nodup := by
  unfold setAdd
  split
  · exact h
  · rename_i hy
    simp only [List.nodup_append, List.nodup_cons, List.not_mem_nil, not_false_iff,
      List.nodup_nil, and_true, true_and, h]
    intro a ha hae
    rw [List.mem_singleton] at hae
    exact hy (hae ▸ ha)

theorem nodup_addAll {s : List String} (ps : List String) (h : s.Nodup) :
    (addAll s ps).Nodup := by
  induction ps generalizing s with
  | nil => exact h
  | cons p t ih => exact ih (nodup_setAdd h p)

theorem nodup_process_asn (pA pB pC : List String) : (process_asn pA pB pC).Nodup :=
  ((List.perm_insertionSort _ _).nodup_iff).mpr
    (nodup_addAll _ (nodup_addAll _ (nodup_addAll _ List.nodup_nil)))

theorem mem_process_asn {x : String} {pA pB pC : List String} :
    x ∈ process_asn pA pB pC ↔ x ∈ pA ∨ x ∈ pB ∨ x ∈ pC := by
  unfold process_asn
  rw [(List.perm_insertionSort _ _).mem_iff, mem_addAll, mem_addAll, mem_addAll]
  simp [or_assoc]

theorem sorted_le_process_asn (pA pB pC : List String) :
    (process_asn pA pB pC).Sorted (· ≤ ·) :=
  List.sorted_insertionSort _ _

theorem sorted_lt_process_asn (pA pB pC : List String) :
    (process_asn pA pB pC).Sorted (· < ·) :=
  (sorted_le_process_asn pA pB pC).lt_of_le (nodup_process_asn pA pB pC)

theorem process_asn_ext {pA pB pC qA qB qC : List String}
    (h : ∀ x, (x ∈ pA ∨ x ∈ pB ∨ x ∈ pC) ↔ (x ∈ qA ∨ x ∈ qB ∨ x ∈ qC)) :
    process_asn pA pB pC = process_asn qA qB qC := by
  apply List.eq_of_perm_of_sorted ?_ (sorted_le_process_asn pA pB pC)
    (sorted_le_process_asn qA qB qC)
  apply (List.perm_ext_iff_of_nodup (nodup_process_asn pA pB pC)
    (nodup_process_asn qA qB qC)).mpr
  intro a
  rw [mem_process_asn, mem_process_asn]
  exact h a

/-- C3: the aggregate is the union of the three adapters' prefix strings,
deduplicated by exact string equality and sorted strictly ascending; on
the concrete instance A = ["10.0.0.0/24"], B = ["10.0.0.0/24",
"10.0.1.0/24"], C = [] it is exactly ["10.0.0.0/24", "10.0.1.0/24"]. -/
theorem process_asn_union_sorted :
    (∀ pA pB pC : List String,
      (process_asn pA pB pC).Sorted (· < ·) ∧
      ∀ x, x ∈ process_asn pA pB pC ↔ x ∈ pA ∨ x ∈ pB ∨ x ∈ pC) ∧
    process_asn ["10.0.0.0/24"] ["10.0.0.0/24", "10.0.1.0/24"] [] =
      ["10.0.0.0/24", "10.0.1.0/24"] := by
  refine ⟨fun pA pB pC => ⟨sorted_lt_process_asn pA pB pC, fun x => mem_process_asn⟩, ?_⟩
  simp only [process_asn, addAll, setAdd, List.foldl, List.insertionSort, List.orderedInsert]
  norm_num
  decide

/-- C4: the aggregator's merge is commutative and idempotent — merging the
same three result lists in any invocation order yields the same sorted
list, and merging the merged result again (or together with result sets
already present) does not change it. -/
theorem process_asn_comm_idem (pA pB pC : List String) :
    process_asn pA pB pC = process_asn pA pC pB ∧
    process_asn pA pB pC = process_asn pB pA pC ∧
    process_asn pA pB pC = process_asn pB pC pA ∧
    process_asn pA pB pC = process_asn pC pA pB ∧
    process_asn pA pB pC = process_asn pC pB pA ∧
    process_asn (process_asn pA pB pC) (process_asn pA pB pC) (process_asn pA pB pC) =
      process_asn pA pB pC ∧
    process_asn (process_asn pA pB pC) pB pC = process_asn pA pB pC := by
  refine ⟨process_asn_ext fun x => by tauto, process_asn_ext fun x => by tauto,
    process_asn_ext fun x => by tauto, process_asn_ext fun x => by tauto,
    process_asn_ext fun x => by tauto, ?_, ?_⟩
  · exact process_asn_ext fun x => by rw [mem_process_asn]; tauto
  · exact process_asn_ext fun x => by rw [mem_process_asn]; tauto

/-! ## JSON values and Python semantics on them

`JValue` models the Python values produced by `json.loads`. The helper
functions model the exact Python operations the adapters perform on them,
including the exceptions Python raises on unexpected shapes. JSON floats
are not modelled (the routing data carries integer ASNs and string CIDRs);
a numeric token with a fractional or exponent part is treated as a parse
failure. -/

/-- A Python value decoded from JSON. -/
inductive JValue where
  | null
  | bool (b : Bool)
  | num (n : Int)
  | str (s : String)
  | arr (elems : List JValue)
  | obj (fields : List (String × JValue))

/-- The Python exceptions that the adapter code can raise or swallow. -/
inductive PyExc where
  | jsonDecodeError
  | attributeError
  | typeError
  | keyError
  | valueError
  | nameError
deriving DecidableEq

/-- Lookup in a decoded JSON object. Python keeps the last of duplicate
keys, so the last binding wins. -/
def jGet (kvs : List (String × JValue)) (key : String) : Option JValue :=
  match kvs with
  | [] => none
  | (k, v) :: rest =>
    match jGet rest key with
    | some w => some w
    | none => if k = key then some v else none

/-- Python `value.get(key, dflt)`: works on a `dict`, raises
`AttributeError` on any other decoded value. -/
def pyGet (v : JValue) (key : String) (dflt : JValue) : Except PyExc JValue :=
  match v with
  | .obj kvs => .ok ((jGet kvs key).getD dflt)
  | _ => .error .attributeError

/-- Python iteration `for entry in v`: lists yield their elements, dicts
their keys, strings their characters; other values raise `TypeError`. -/
def pyIter (v : JValue) : Except PyExc (List JValue) :=
  match v with
  | .arr l => .ok l
  | .obj kvs => .ok (kvs.map fun kv => .str kv.1)
  | .str s => .ok (s.toList.map fun c => .str (String.mk [c]))
  | _ => .error .typeError

/-- Python substring test `sub in s`. -/
def isSubstr (needle hay : List Char) : Bool :=
  match hay with
  | [] => needle.isEmpty
  | _ :: t => needle.isPrefixOf hay || isSubstr needle t

/-- Python `key in entry` for a string `key`: key membership for dicts,
element equality for lists, substring test for strings; other values raise
`TypeError`. -/
def pyContainsStr (key : String) (v : JValue) : Except PyExc Bool :=
  match v with
  | .obj kvs => .ok (jGet kvs key).isSome
  | .arr l => .ok (l.any fun e => match e with | .str s => s = key | _ => false)
  | .str s => .ok (isSubstr key.toList s.toList)
  | _ => .error .typeError

/-- Python `entry[key]` for a string `key`: dict indexing; lists and
strings require integer indices (`TypeError`); other values are not
subscriptable (`TypeError`). -/
def pyIndexStr (v : JValue) (key : String) : Except PyExc JValue :=
  match v with
  | .obj kvs =>
    match jGet kvs key with
    | some w => .ok w
    | none => .error .keyError
  | _ => .error .typeError

/-- Python truthiness of a decoded value. -/
def pyTruthy (v : JValue) : Bool :=
  match v with
  | .null => false
  | .bool b => b
  | .num n => n != 0
  | .str s => s != ""
  | .arr l => !l.isEmpty
  | .obj kvs => !kvs.isEmpty

/-- Python `v == n` for an `int` literal `n` (`True == 1` holds). -/
def pyEqInt (v : JValue) (n : Int) : Bool :=
  match v with
  | .num m => m == n
  | .bool b => (if b then (1 : Int) else 0) == n
  | _ => false

/-- Python `v == s` for a `str` literal `s`. -/
def pyEqStr (v : JValue) (s : String) : Bool :=
  match v with
  | .str t => t == s
  | _ => false

/-! ### `json.loads` (used by `response.json()` and per-line parsing) -/

/-- JSON inter-token whitespace. -/
def jWs (c : Char) : Bool :=
  c = ' ' || c = '\t' || c = '\n' || c = '\r'

/-- Skip JSON whitespace. -/
def skipWs (l : List Char) : List Char :=
  l.dropWhile jWs

/-- Hexadecimal digit value, for string escapes. -/
def hexVal (c : Char) : Option Nat :=
  if 48 ≤ c.toNat ∧ c.toNat ≤ 57 then some (c.toNat - 48)
  else if 97 ≤ c.toNat ∧ c.toNat ≤ 102 then some (c.toNat - 87)
  else if 65 ≤ c.toNat ∧ c.toNat ≤ 70 then some (c.toNat - 55)
  else none

/-- Parse the body of a JSON string after the opening quote: returns the
decoded characters and the input after the closing quote. Unknown escapes
and raw control characters are rejected, as in Python. -/
def parseJString : Nat → List Char → Option (List Char × List Char)
  | 0, _ => none
  | _ + 1, [] => none
  | fuel + 1, c :: rest =>
    if c = '\x22' then some ([], rest)
    else if c = '\x5c' then
      match rest with
      | [] => none
      | e :: rest2 =>
        let esc : Option (Char × List Char) :=
          if e = '\x22' then some ('\x22', rest2)
          else if e = '\x5c' then some ('\x5c', rest2)
          else if e = '/' then some ('/', rest2)
          else if e = 'b' then some ('\x08', rest2)
          else if e = 'f' then some ('\x0c', rest2)
          else if e = 'n' then some ('\n', rest2)
          else if e = 'r' then some ('\r', rest2)
          else if e = 't' then some ('\t', rest2)
          else if e = 'u' then
            match rest2 with
            | h1 :: h2 :: h3 :: h4 :: rest3 =>
              match hexVal h1, hexVal h2, hexVal h3, hexVal h4 with
              | some a, some b, some c2, some d =>
                some (Char.ofNat (((a * 16 + b) * 16 + c2) * 16 + d), rest3)
              | _, _, _, _ => none
            | _ => none
          else none
        match esc with
        | some (ch, r2) =>
          match parseJString fuel r2 with
          | some (cs, r3) => some (ch :: cs, r3)
          | none => none
        | none => none
    else if c.toNat < 32 then none
    else
      match parseJString fuel rest with
      | some (cs, r3) => some (c :: cs, r3)
      | none => none

/-- A JSON unsigned integer token: `0`, or a digit run not starting with
`0`. -/
def parseDigits (l : List Char) : Option (Nat × List Char) :=
  match l with
  | [] => none
  | c :: rest =>
    if c = '0' then some (0, rest)
    else if c.isDigit then
      some ((l.takeWhile Char.isDigit).foldl (fun a d => a * 10 + (d.toNat - 48)) 0,
        l.dropWhile Char.isDigit)
    else none

/-- A JSON number token restricted to integers: a fractional or exponent
part is treated as a parse failure (floats are outside the model). -/
def parseNumber (l : List Char) : Option (Int × List Char) :=
  let core : List Char → Option (Int × List Char) := fun l2 =>
    match parseDigits l2 with
    | some (n, r) =>
      match r with
      | d :: _ => if d = '.' ∨ d = 'e' ∨ d = 'E' then none else some ((n : Int), r)
      | [] => some ((n : Int), [])
    | none => none
  match l with
  | '-' :: rest => (core rest).map fun p => (-p.1, p.2)
  | _ => core l

mutual

/-- Parse one JSON value. The fuel argument only bounds nesting; it is
instantiated with more than the input length, which every recursive call
strictly consumes. -/
def parseValue : Nat → List Char → Option (JValue × List Char)
  | 0, _ => none
  | _ + 1, [] => none
  | fuel + 1, c :: rest =>
    if c = '\x22' then
      match parseJString (fuel + 1) rest with
      | some (cs, r) => some (.str (String.mk cs), r)
      | none => none
    else if c = '\x7b' then
      match skipWs rest with
      | d :: r2 => if d = '\x7d' then some (.obj [], r2) else parseMembers fuel (d :: r2)
      | [] => none
    else if c = '[' then
      match skipWs rest with
      | d :: r2 => if d = ']' then some (.arr [], r2) else parseElems fuel (d :: r2)
      | [] => none
    else if c = 't' then
      match rest with
      | 'r' :: 'u' :: 'e' :: r => some (.bool true, r)
      | _ => none
    else if c = 'f' then
      match rest with
      | 'a' :: 'l' :: 's' :: 'e' :: r => some (.bool false, r)
      | _ => none
    else if c = 'n' then
      match rest with
      | 'u' :: 'l' :: 'l' :: r => some (.null, r)
      | _ => none
    else
      match parseNumber (c :: rest) with
      | some (n, r) => some (.num n, r)
      | none => none

/-- Parse the members of a JSON object, positioned at a key string. -/
def parseMembers : Nat → List Char → Option (JValue × List Char)
  | 0, _ => none
  | _ + 1, [] => none
  | fuel + 1, c :: rest =>
    if c = '\x22' then
      match parseJString fuel rest with
      | some (key, r1) =>
        match skipWs r1 with
        | ':' :: r2 =>
          match parseValue fuel (skipWs r2) with
          | some (v, r3) =>
            match skipWs r3 with
            | ',' :: r4 =>
              match parseMembers fuel (skipWs r4) with
              | some (.obj kvs, r5) => some (.obj ((String.mk key, v) :: kvs), r5)
              | _ => none
            | d :: r4 => if d = '\x7d' then some (.obj [(String.mk key, v)], r4) else none
            | [] => none
          | none => none
        | _ => none
      | none => none
    else none

/-- Parse the elements of a JSON array, positioned at a value. -/
def parseElems : Nat → List Char → Option (JValue × List Char)
  | 0, _ => none
  | fuel + 1, l =>
    match parseValue fuel l with
    | some (v, r1) =>
      match skipWs r1 with
      | ',' :: r2 =>
        match parseElems fuel (skipWs r2) with
        | some (.arr vs, r3) => some (.arr (v :: vs), r3)
        | _ => none
      | ']' :: r2 => some (.arr [v], r2)
      | _ => none
    | none => none

end

/-- `json.loads` on ASCII text (integer numbers only): parse one JSON
value and require only whitespace to remain. A failure models
`json.JSONDecodeError`. -/
def jsonLoads (s : String) : Except PyExc JValue :=
  match parseValue (s.toList.length + 1) (skipWs s.toList) with
  | some (v, rest) => if skipWs rest = [] then .ok v else .error .jsonDecodeError
  | none => .error .jsonDecodeError


/-! ## Bulk table cache (`get_bgptools_lines`, src/a.py lines 13-51)

The filesystem, clock and network are modelled by an explicit environment.
Timestamps are `Int` seconds so that a modification time in the future
behaves as in the code (`time.time() - mod_time` may be negative, which
still counts as fresh).

Two traps of the source are modelled exactly:
* `open(BGPT_CACHE_FILE, "w")` at line 40 truncates (or creates) the cache
  file before `f.write` runs, so a failed persist comes in two shapes: a
  failed `open` leaves the previous file untouched, while a failed `write`
  leaves the file holding a truncated portion of the fresh body — and the
  file now exists even if no cache existed before.
* the inner `except Exception as e` at line 48 deletes the name `e` when
  its handler exits, so whenever the fallback read fails, the f-string at
  line 50 raises `NameError`; nothing catches it, so it escapes
  `get_bgptools_lines` (and `fetch_prefixes_bgptools`) and crashes the
  run. -/

/-- `BGPT_CACHE_EXPIRATION = 86400` seconds. -/
def BGPT_CACHE_EXPIRATION : Int := 86400

/-- The ASCII line breaks recognised by Python `str.splitlines()`:
LF, CR, and also `\x0b`, `\x0c`, `\x1c`, `\x1d`, `\x1e` (the non-ASCII
breaks U+0085, U+2028 and U+2029 are outside the model). -/
def isLineBreak (c : Char) : Bool :=
  c = '\n' || c = '\r' || c.toNat = 11 || c.toNat = 12 ||
    c.toNat = 28 || c.toNat = 29 || c.toNat = 30

/-- Helper for `pySplitlines`; `acc` holds the current line reversed, and
CRLF counts as a single break. -/
def splitlinesAux : List Char → List Char → List String
  | [], acc => if acc.isEmpty then [] else [String.mk acc.reverse]
  | '\r' :: '\n' :: rest, acc => String.mk acc.reverse :: splitlinesAux rest []
  | c :: rest, acc =>
    if isLineBreak c then String.mk acc.reverse :: splitlinesAux rest []
    else splitlinesAux rest (c :: acc)

/-- Python `content.splitlines()`. -/
def pySplitlines (s : String) : List String :=
  splitlinesAux s.toList []

/-- Outcome of the persist step (lines 40-41). `open(..., "w")` truncates
before `f.write` runs: a failed `open` leaves the previous file as it was,
while a `write` (or close-time flush) failure leaves the file holding
`truncLines` — the `readlines` view of whatever portion of the body made
it to disk (the full body if only the final flush failed). Each failure
carries the exception message that line 50 would interpolate. -/
inductive WriteOutcome where
  | ok
  | openFail (msg : String)
  | writeFail (msg : String) (truncLines : List String)

/-- The environment `get_bgptools_lines` interacts with. -/
structure CacheEnv where
  /-- `time.time()`. -/
  now : Int
  /-- `(os.path.getmtime, f.readlines())` of the cache file when it
  exists, `none` when `os.path.exists` is false. -/
  cache : Option (Int × List String)
  /-- Whether the fresh-cache read (line 30) succeeds. -/
  readFreshOk : Bool
  /-- Whether the fallback read in the exception handler (line 46)
  succeeds. -/
  readFallbackOk : Bool
  /-- Outcome of `requests.get` + `raise_for_status` on the bulk table:
  the body text, or the exception message. -/
  download : Except String String
  /-- Outcome of persisting the body to the cache file. -/
  write : WriteOutcome

/-- What running `get_bgptools_lines` produces: the returned lines or the
exception that escapes it, whether a network download was attempted, and
the diagnostics printed before returning or crashing. -/
structure LinesResult where
  outcome : Except PyExc (List String)
  networkAttempted : Bool
  diagnostics : List String

/-- The progress message printed before the download. -/
def dlMsg : String := "Downloading fresh bgp.tools data (this may take a moment)..."

/-- The `except` branch at lines 43-51, run when the cache file's state
(as left by the failed attempt) is `file`. If the file exists and can be
read, its lines are returned at once — the fetch failure is never printed.
If the file exists but the read fails, line 49 prints the read error and
then line 50 raises `NameError`: the inner `except ... as e` at line 48
deleted the `e` it interpolates. Only with no file at all is the fetch
failure printed and `[]` returned. -/
def bgptoolsFallback (env : CacheEnv) (file : Option (List String)) (e : String) :
    LinesResult :=
  match file with
  | some ls =>
    if env.readFallbackOk then ⟨.ok ls, true, [dlMsg]⟩
    else ⟨.error .nameError, true, [dlMsg, "Error reading fallback cache file"]⟩
  | none => ⟨.ok [], true, [dlMsg, "Error fetching bgp.tools data: " ++ e]⟩

/-- The download attempt at lines 35-51 (the `try` body and its handler).
On a download failure or a failed `open` the handler sees the previous
file; on a failed `write` it sees the truncated fresh content. -/
def bgptoolsRefresh (env : CacheEnv) : LinesResult :=
  match env.download with
  | .ok content =>
    match env.write with
    | .ok => ⟨.ok (pySplitlines content), true, [dlMsg]⟩
    | .openFail msg => bgptoolsFallback env (env.cache.map Prod.snd) msg
    | .writeFail msg t => bgptoolsFallback env (some t) msg
  | .error e => bgptoolsFallback env (env.cache.map Prod.snd) e

/-- `get_bgptools_lines` (src/a.py lines 13-51). -/
def get_bgptools_lines (env : CacheEnv) : LinesResult :=
  match env.cache with
  | some (modTime, ls) =>
    if env.now - modTime < BGPT_CACHE_EXPIRATION then
      if env.readFreshOk then ⟨.ok ls, false, []⟩
      else
        let r := bgptoolsRefresh env
        ⟨r.outcome, r.networkAttempted, "Error reading cache file" :: r.diagnostics⟩
    else bgptoolsRefresh env
  | none => bgptoolsRefresh env

/-- The fresh-cache fast path is taken: the file exists, is younger than
the expiration threshold, and is readable. -/
def freshHit (env : CacheEnv) : Bool :=
  match env.cache with
  | some (modTime, _) => decide (env.now - modTime < BGPT_CACHE_EXPIRATION) && env.readFreshOk
  | none => false

/-! ## Source adapters (src/a.py lines 62-133) -/

/-- Outcome of an adapter's single `requests.get(...)` followed by
`response.raise_for_status()`: either a `requests.RequestException`
(transport error, timeout, or non-success HTTP status) with its message,
or a successful response with its body text. -/
inductive HttpOutcome where
  | exn (msg : String)
  | ok (body : String)

/-- One iteration of the prefix-extraction loop:
`if "prefix" in entry: prefixes.append(entry["prefix"])`. -/
def extractStep (acc : List JValue) (entry : JValue) : Except PyExc (List JValue) := do
  let b ← pyContainsStr "prefix" entry
  if b then
    let p ← pyIndexStr entry "prefix"
    pure (acc ++ [p])
  else
    pure acc

/-- The loop `for entry in v: ...` appending each `entry["prefix"]` to
`acc`. -/
def extractPrefixes (v : JValue) (acc : List JValue) : Except PyExc (List JValue) := do
  let entries ← pyIter v
  entries.foldlM extractStep acc

/-- `fetch_prefixes_bgpview` (src/a.py lines 62-86). The `try` block only
covers `requests.get` and `raise_for_status`; `response.json()` and the
payload traversal are outside it, so exceptions raised there escape to the
caller (modelled by `Except.error`). On the caught path the function
returns the prefix list together with the printed diagnostics. -/
def fetch_prefixes_bgpview (asn : List Char) (resp : HttpOutcome) :
    Except PyExc (List JValue × List String) :=
  match resp with
  | .exn e =>
    .ok ([], ["Error fetching data from BGPView for " ++ String.mk asn ++ ": " ++ e])
  | .ok body => do
    let data ← jsonLoads body
    let status ← pyGet data "status" .null
    if pyEqStr status "ok" then do
      let d1 ← pyGet data "data" (.obj [])
      let v4 ← pyGet d1 "ipv4_prefixes" (.arr [])
      let p4 ← extractPrefixes v4 []
      let d2 ← pyGet data "data" (.obj [])
      let v6 ← pyGet d2 "ipv6_prefixes" (.arr [])
      let p ← extractPrefixes v6 p4
      pure (p, [])
    else
      pure ([], ["BGPView API error for " ++ String.mk asn])

/-- `fetch_prefixes_ripe` (src/a.py lines 88-109); same structure as the
BGPView adapter with a single `data.prefixes` list. -/
def fetch_prefixes_ripe (asn : List Char) (resp : HttpOutcome) :
    Except PyExc (List JValue × List String) :=
  match resp with
  | .exn e =>
    .ok ([], ["Error fetching data from RIPEstat for " ++ String.mk asn ++ ": " ++ e])
  | .ok body => do
    let data ← jsonLoads body
    let status ← pyGet data "status" .null
    if pyEqStr status "ok" then do
      let d1 ← pyGet data "data" (.obj [])
      let ps ← pyGet d1 "prefixes" (.arr [])
      let p ← extractPrefixes ps []
      pure (p, [])
    else
      pure ([], ["RIPEstat API error for " ++ String.mk asn])

/-- One line of the bulk-table scan (the `try` body at lines 125-132):
parse the line, and when `entry.get("ASN") == numeric_asn` collect
`entry.get("CIDR")` if truthy; `except Exception: continue` turns every
failure (bad JSON, non-dict entry) into a skip. -/
def bgptoolsLine (numAsn : Int) (line : String) : Option JValue :=
  match jsonLoads line with
  | .error _ => none
  | .ok entry =>
    match entry with
    | .obj kvs =>
      if pyEqInt ((jGet kvs "ASN").getD .null) numAsn then
        match jGet kvs "CIDR" with
        | some cidr => if pyTruthy cidr then some cidr else none
        | none => none
      else none
    | _ => none

/-- `fetch_prefixes_bgptools` (src/a.py lines 111-133): parse the ASN's
numeric form (reporting and returning empty on `ValueError`), obtain the
bulk-table lines from the cache layer, and scan them; `if line:` skips
empty lines and every per-line failure is skipped. The call to
`get_bgptools_lines` at line 121 is outside any `try`, so an exception
escaping the cache layer (its `NameError` path) propagates to the
caller. -/
def fetch_prefixes_bgptools (asn : List Char) (env : CacheEnv) :
    Except PyExc (List JValue × List String) :=
  match (if asLit.isPrefixOf asn then pyIntOfList (asn.drop 2) else pyIntOfList asn) with
  | none => .ok ([], ["Invalid ASN format: " ++ String.mk asn])
  | some numAsn =>
    let r := get_bgptools_lines env
    match r.outcome with
    | .error ex => .error ex
    | .ok lines =>
      .ok (lines.foldl
        (fun acc line =>
          if line == "" then acc
          else
            match bgptoolsLine numAsn line with
            | some v => acc ++ [v]
            | none => acc) [],
        r.diagnostics)

/-! ## Claim theorems for the bulk table cache -/

theorem fallback_read_ok {env : CacheEnv} {ls : List String} {e : String}
    (hr : env.readFallbackOk = true) :
    bgptoolsFallback env (some ls) e = ⟨.ok ls, true, [dlMsg]⟩ := by
  unfold bgptoolsFallback
  simp [hr]

theorem fallback_read_fail {env : CacheEnv} {ls : List String} {e : String}
    (hr : env.readFallbackOk = false) :
    bgptoolsFallback env (some ls) e =
      ⟨.error .nameError, true, [dlMsg, "Error reading fallback cache file"]⟩ := by
  unfold bgptoolsFallback
  simp [hr]

theorem fallback_no_file {env : CacheEnv} {e : String} :
    bgptoolsFallback env none e =
      ⟨.ok [], true, [dlMsg, "Error fetching bgp.tools data: " ++ e]⟩ :=
  rfl

theorem networkAttempted_fallback (env : CacheEnv) (file : Option (List String)) (e : String) :
    (bgptoolsFallback env file e).networkAttempted = true := by
  unfold bgptoolsFallback
  cases file with
  | none => rfl
  | some ls =>
    dsimp only
    split <;> rfl

theorem networkAttempted_refresh (env : CacheEnv) :
    (bgptoolsRefresh env).networkAttempted = true := by
  unfold bgptoolsRefresh
  cases env.download with
  | error e => exact networkAttempted_fallback env _ e
  | ok c =>
    dsimp only
    cases env.write with
    | ok => rfl
    | openFail msg => exact networkAttempted_fallback env _ msg
    | writeFail msg t => exact networkAttempted_fallback env _ msg

theorem refresh_error_eq {env : CacheEnv} {e : String} (hdl : env.download = .error e) :
    bgptoolsRefresh env = bgptoolsFallback env (env.cache.map Prod.snd) e := by
  unfold bgptoolsRefresh
  rw [hdl]

theorem refresh_openfail_eq {env : CacheEnv} {content msg : String}
    (hdl : env.download = .ok content) (hw : env.write = .openFail msg) :
    bgptoolsRefresh env = bgptoolsFallback env (env.cache.map Prod.snd) msg := by
  unfold bgptoolsRefresh
  rw [hdl, hw]

theorem refresh_writefail_eq {env : CacheEnv} {content msg : String} {t : List String}
    (hdl : env.download = .ok content) (hw : env.write = .writeFail msg t) :
    bgptoolsRefresh env = bgptoolsFallback env (some t) msg := by
  unfold bgptoolsRefresh
  rw [hdl, hw]

theorem readFreshOk_false_of_not_freshHit {env : CacheEnv} {mt : Int} {ls : List String}
    (hmiss : freshHit env = false) (hc : env.cache = some (mt, ls))
    (hfresh : env.now - mt < BGPT_CACHE_EXPIRATION) : env.readFreshOk = false := by
  unfold freshHit at hmiss
  rw [hc] at hmiss
  simpa [hfresh] using hmiss

theorem outcome_get_bgptools_of_not_fresh {env : CacheEnv} (hmiss : freshHit env = false) :
    (get_bgptools_lines env).outcome = (bgptoolsRefresh env).outcome := by
  unfold get_bgptools_lines
  cases hc : env.cache with
  | none => rfl
  | some p =>
    rcases p with ⟨mt, ls⟩
    dsimp only
    by_cases hfresh : env.now - mt < BGPT_CACHE_EXPIRATION
    · rw [if_pos hfresh, readFreshOk_false_of_not_freshHit hmiss hc hfresh]
      rfl
    · rw [if_neg hfresh]

/-- C5: if the cache file exists, its age is strictly under 86400 seconds
and it is readable, its lines are returned with no network call; if the
cache file is absent, or its age is not under 86400 seconds, a network
refresh is attempted. -/
theorem get_bgptools_lines_freshness (env : CacheEnv) :
    (∀ modTime ls, env.cache = some (modTime, ls) →
      env.now - modTime < BGPT_CACHE_EXPIRATION → env.readFreshOk = true →
      get_bgptools_lines env = ⟨.ok ls, false, []⟩) ∧
    (env.cache = none → (get_bgptools_lines env).networkAttempted = true) ∧
    (∀ modTime ls, env.cache = some (modTime, ls) →
      ¬ env.now - modTime < BGPT_CACHE_EXPIRATION →
      (get_bgptools_lines env).networkAttempted = true) := by
  refine ⟨?_, ?_, ?_⟩
  · intro mt ls hc hf hr
    unfold get_bgptools_lines
    rw [hc]
    dsimp only
    rw [if_pos hf, hr]
    rfl
  · intro hc
    unfold get_bgptools_lines
    rw [hc]
    exact networkAttempted_refresh env
  · intro mt ls hc hf
    unfold get_bgptools_lines
    rw [hc]
    dsimp only
    rw [if_neg hf]
    exact networkAttempted_refresh env

/-- Witness for C5: a 1-hour-old cache file is served with no network
call; a 25-hour-old one and an absent one both trigger a refresh
attempt. -/
theorem get_bgptools_lines_freshness_witness :
    get_bgptools_lines ⟨3600, some (0, ["line\n"]), true, true, .error "boom", .ok⟩ =
      ⟨.ok ["line\n"], false, []⟩ ∧
    (get_bgptools_lines
      ⟨90000, some (0, ["line\n"]), true, true, .error "boom", .ok⟩).networkAttempted = true ∧
    (get_bgptools_lines ⟨90000, none, true, true, .error "boom", .ok⟩).networkAttempted = true :=
  ⟨(get_bgptools_lines_freshness _).1 0 ["line\n"] rfl (by decide) rfl,
   (get_bgptools_lines_freshness _).2.2 0 ["line\n"] rfl (by decide),
   (get_bgptools_lines_freshness _).2.1 rfl⟩

/-- The environment of the C6 counterexample's unreported path: stale
cache file, failing download, readable fallback. -/
def staleFallbackEnv : CacheEnv :=
  ⟨100000, some (500, ["10.0.0.0/24\n"]), true, true, .error "boom", .ok⟩

/-- The environment of the C6 counterexample's fatal path: stale cache
file, failing download, failing fallback read. -/
def staleCrashEnv : CacheEnv :=
  ⟨100000, some (500, ["10.0.0.0/24\n"]), true, false, .error "boom", .ok⟩

/-- C6 (counterexample): two refutations at concrete inputs. (i) When the
refresh fails and the stale-cache fallback read succeeds, the cache lines
are returned but the fetch failure is not reported — the only diagnostic
is the pre-download progress message, since the code returns from the
fallback read before reaching the error print. (ii) When the fallback read
also fails, the failure is fatal rather than merely diagnosed: line 50
raises `NameError` (line 48's `except ... as e` deleted the `e` it
interpolates) and the exception escapes `get_bgptools_lines`. -/
theorem get_bgptools_lines_failure_unreported :
    staleFallbackEnv.download = .error "boom" ∧
    get_bgptools_lines staleFallbackEnv = ⟨.ok ["10.0.0.0/24\n"], true, [dlMsg]⟩ ∧
    ("Error fetching bgp.tools data: boom" ∈
      (get_bgptools_lines staleFallbackEnv).diagnostics → False) ∧
    staleCrashEnv.download = .error "boom" ∧
    get_bgptools_lines staleCrashEnv =
      ⟨.error .nameError, true, [dlMsg, "Error reading fallback cache file"]⟩ := by
  refine ⟨rfl, rfl, ?_, rfl, rfl⟩
  intro h
  rw [show (get_bgptools_lines staleFallbackEnv).diagnostics = [dlMsg] from rfl,
    List.mem_singleton] at h
  exact absurd h (by decide)

/-- C6 (amended): if the refresh attempt fails: a readable existing cache
file's lines (even stale ones) are returned rather than the empty
sequence, with the failure left unreported; with no cache file, the empty
sequence is returned and the failure is reported via a diagnostic; but the
failure can be fatal — when the fallback read itself fails, line 50 raises
`NameError` (the name `e` was deleted by line 48's `except`) and the
exception escapes the cache layer and crashes the run. -/
theorem get_bgptools_lines_fallback (env : CacheEnv) (e : String)
    (hdl : env.download = .error e) (hmiss : freshHit env = false) :
    (∀ modTime ls, env.cache = some (modTime, ls) → env.readFallbackOk = true →
      (get_bgptools_lines env).outcome = .ok ls) ∧
    (env.cache = none →
      get_bgptools_lines env =
        ⟨.ok [], true, [dlMsg, "Error fetching bgp.tools data: " ++ e]⟩) ∧
    (∀ modTime ls, env.cache = some (modTime, ls) → env.readFallbackOk = false →
      (get_bgptools_lines env).outcome = .error .nameError) := by
  refine ⟨?_, ?_, ?_⟩
  · intro mt ls hc hr
    rw [outcome_get_bgptools_of_not_fresh hmiss, refresh_error_eq hdl,
      show env.cache.map Prod.snd = some ls from by rw [hc]; rfl, fallback_read_ok hr]
  · intro hc
    unfold get_bgptools_lines
    rw [hc, refresh_error_eq hdl, hc]
    exact congrArg (bgptoolsFallback env none) rfl
  · intro mt ls hc hr
    rw [outcome_get_bgptools_of_not_fresh hmiss, refresh_error_eq hdl,
      show env.cache.map Prod.snd = some ls from by rw [hc]; rfl, fallback_read_fail hr]

/-- Witness for C6: with a failing download, a stale readable cache file
yields its lines; an absent cache file yields the empty sequence plus the
failure diagnostic; a stale unreadable one yields the escaping
`NameError`. -/
theorem get_bgptools_lines_fallback_witness :
    (get_bgptools_lines
      ⟨100000, some (500, ["a\n", "b\n"]), true, true, .error "down", .ok⟩).outcome =
      .ok ["a\n", "b\n"] ∧
    get_bgptools_lines ⟨100000, none, true, true, .error "down", .ok⟩ =
      ⟨.ok [], true, [dlMsg, "Error fetching bgp.tools data: down"]⟩ ∧
    (get_bgptools_lines
      ⟨100000, some (500, ["a\n"]), true, false, .error "down", .ok⟩).outcome =
      .error .nameError :=
  ⟨(get_bgptools_lines_fallback _ "down" rfl (by decide)).1 500 ["a\n", "b\n"] rfl rfl,
   (get_bgptools_lines_fallback _ "down" rfl (by decide)).2.1 rfl,
   (get_bgptools_lines_fallback _ "down" rfl (by decide)).2.2 500 ["a\n"] rfl rfl⟩

/-- The environment of the C10 counterexample: the download succeeds, but
the write raises after `open("w")` truncated the cache file, leaving only
the first downloaded line on disk; a stale previous cache existed. -/
def truncWriteEnv : CacheEnv :=
  ⟨100000, some (500, ["old\n"]), true, true, .ok "fresh1\nfresh2",
    .writeFail "disk full" ["fresh1"]⟩

/-- As `truncWriteEnv`, but no cache file existed before the attempt: the
failed write still leaves a (truncated) file behind. -/
def truncWriteNoCacheEnv : CacheEnv :=
  ⟨100000, none, true, true, .ok "fresh1\nfresh2", .writeFail "disk full" ["fresh1"]⟩

/-- C10 (counterexample): when `f.write` fails after `open("w")` has
already truncated the cache file, the fallback read at lines 44-47 returns
the truncated fresh content now in the file — `["fresh1"]`, not the
previous cache lines `["old\n"]`; and when no cache file existed, the
newly created file makes the fallback return `["fresh1"]` rather than the
empty sequence. So the claim's "previous cache file's lines / empty
sequence" description of the fallback is false, and part of the freshly
downloaded content is returned. -/
theorem get_bgptools_lines_truncated_write :
    truncWriteEnv.cache = some (500, ["old\n"]) ∧
    truncWriteEnv.download = .ok "fresh1\nfresh2" ∧
    get_bgptools_lines truncWriteEnv = ⟨.ok ["fresh1"], true, [dlMsg]⟩ ∧
    (["fresh1"] = ["old\n"] → False) ∧
    truncWriteNoCacheEnv.cache = none ∧
    get_bgptools_lines truncWriteNoCacheEnv = ⟨.ok ["fresh1"], true, [dlMsg]⟩ ∧
    (["fresh1"] = ([] : List String) → False) :=
  ⟨rfl, rfl, rfl, by decide, rfl, rfl, by decide⟩

/-- C10 (amended): when the download succeeds but persisting it raises,
the value built from the downloaded body (`content.splitlines()`) is
discarded and the function falls back to re-reading the cache file; if
`open` itself failed, the previous file is intact, so its readable lines
(or the empty sequence when no file exists) are returned; but if `write`
failed after `open` truncated the file, the fallback read returns the
truncated portion of the fresh content now in the file — even when no
cache file existed before — rather than the previous lines or the empty
sequence. -/
theorem get_bgptools_lines_write_failure (env : CacheEnv) (content msg : String)
    (hdl : env.download = .ok content) (hmiss : freshHit env = false) :
    (env.write = .openFail msg →
      (∀ modTime ls, env.cache = some (modTime, ls) → env.readFallbackOk = true →
        (get_bgptools_lines env).outcome = .ok ls) ∧
      (env.cache = none → (get_bgptools_lines env).outcome = .ok [])) ∧
    (∀ t, env.write = .writeFail msg t → env.readFallbackOk = true →
      (get_bgptools_lines env).outcome = .ok t) := by
  constructor
  · intro hw
    constructor
    · intro mt ls hc hr
      rw [outcome_get_bgptools_of_not_fresh hmiss, refresh_openfail_eq hdl hw,
        show env.cache.map Prod.snd = some ls from by rw [hc]; rfl, fallback_read_ok hr]
    · intro hc
      rw [outcome_get_bgptools_of_not_fresh hmiss, refresh_openfail_eq hdl hw,
        show env.cache.map Prod.snd = none from by rw [hc]; rfl, fallback_no_file]
  · intro t hw hr
    rw [outcome_get_bgptools_of_not_fresh hmiss, refresh_writefail_eq hdl hw,
      fallback_read_ok hr]

/-- Witness for C10: a failed `open` leaves the old lines (or the empty
sequence) to be returned; a failed `write` returns the truncated fresh
line, which differs from both the old lines and the full downloaded
`splitlines` value. -/
theorem get_bgptools_lines_write_failure_witness :
    (get_bgptools_lines
      ⟨100000, some (500, ["old\n"]), true, true, .ok "fresh1\nfresh2",
        .openFail "permission denied"⟩).outcome = .ok ["old\n"] ∧
    (get_bgptools_lines
      ⟨100000, none, true, true, .ok "fresh1\nfresh2",
        .openFail "permission denied"⟩).outcome = .ok [] ∧
    (get_bgptools_lines truncWriteEnv).outcome = .ok ["fresh1"] ∧
    pySplitlines "fresh1\nfresh2" = ["fresh1", "fresh2"] :=
  ⟨((get_bgptools_lines_write_failure _ "fresh1\nfresh2" "permission denied" rfl
      (by decide)).1 rfl).1 500 ["old\n"] rfl rfl,
   ((get_bgptools_lines_write_failure _ "fresh1\nfresh2" "permission denied" rfl
      (by decide)).1 rfl).2 rfl,
   (get_bgptools_lines_write_failure truncWriteEnv "fresh1\nfresh2" "disk full" rfl
      (by decide)).2 ["fresh1"] rfl rfl,
   rfl⟩

/-! ## Claim theorems for the source adapters -/

/-- The cache environment of the C1 counterexample's bulk-table conjunct:
stale cache file, failing download, failing fallback read. -/
def bgptoolsCrashEnv : CacheEnv :=
  ⟨100000, some (500, ["x\n"]), true, false, .error "net down", .ok⟩

/-- C1 (counterexample): (i) a successful HTTP response whose JSON payload
is an array — an unexpected payload shape — makes both HTTP adapters raise
`AttributeError` (`data.get` on a list) to their caller, because
`response.json()` and the payload traversal sit outside the `try` block;
(ii) `fetch_prefixes_bgptools` raises `NameError` to its caller when a
failed refresh's fallback cache read also fails, because line 48's
`except ... as e` deletes the `e` that line 50 then interpolates. -/
theorem adapters_raise_on_list_payload :
    fetch_prefixes_bgpview "AS62419".toList (.ok "[]") = .error .attributeError ∧
    fetch_prefixes_ripe "AS62419".toList (.ok "[]") = .error .attributeError ∧
    fetch_prefixes_bgptools "AS62419".toList bgptoolsCrashEnv = .error .nameError :=
  ⟨rfl, rfl, rfl⟩

/-- C1 (amended): every transport error, timeout or non-success HTTP
status is caught inside `fetch_prefixes_bgpview` and `fetch_prefixes_ripe`
and converted into an empty prefix list plus a diagnostic message; but a
successful response whose body is not a JSON object raises an uncaught
exception out of the two HTTP adapters, and `fetch_prefixes_bgptools`
raises `NameError` when a failed refresh's fallback cache read fails (see
the counterexample). -/
theorem adapters_catch_transport_errors (asn : List Char) (e : String) :
    fetch_prefixes_bgpview asn (.exn e) =
      .ok ([], ["Error fetching data from BGPView for " ++ String.mk asn ++ ": " ++ e]) ∧
    fetch_prefixes_ripe asn (.exn e) =
      .ok ([], ["Error fetching data from RIPEstat for " ++ String.mk asn ++ ": " ++ e]) :=
  ⟨rfl, rfl⟩

/-- The cache environment serving exactly the bulk-table lines of the C7
scenario. -/
def bgptoolsMalformedEnv : CacheEnv :=
  ⟨1000, some (500, ["\x7bbad json", "\x7b\"ASN\":62419,\"CIDR\":\"10.0.0.0/24\"\x7d", ""]),
    true, true, .error "unused", .ok⟩

/-- C7: for ASN "AS62419" over the bulk-table lines
`["{bad json", '{"ASN":62419,"CIDR":"10.0.0.0/24"}', ""]` (braces written
as hex escapes), `fetch_prefixes_bgptools` returns exactly
`["10.0.0.0/24"]`: the unparseable line and the empty line are silently
skipped without aborting the scan. -/
theorem fetch_prefixes_bgptools_malformed_lines :
    fetch_prefixes_bgptools "AS62419".toList bgptoolsMalformedEnv =
      .ok ([JValue.str "10.0.0.0/24"], []) :=
  rfl
